import Mathlib

/-!
Verification of the Humanly escalation subsystem against its specification.

The operator-console (dashboard) logic is embedded from
`src/Frontend/src/components/EscalationDashboard.tsx` (two variants of the
component appear in the repository; both are embedded) and from the dashboard
in `src/unnamed/part_005`, which coincides with the first variant.

Timestamps are ISO-8601 strings in the source; since the dashboard and spec
only ever compare them chronologically, they are embedded as `Nat`
(ISO-8601 strings compare lexicographically in time order).

The backend Escalation Store / Orchestrator code is not part of the
repository snapshot (only the frontend and documentation are), so the Store
operations needed by the claims about `respond`, `awaitResponse` and the
compare-and-set transition are modelled from the spec; each such definition
is marked `Modelled from the spec:` in its doc comment.
-/

namespace Humanly

/-- Escalation status, from the `status: "pending" | "resolved"` field of
the `Escalation` interface in `EscalationDashboard.tsx`. -/
inductive Status where
  | pending
  | resolved
deriving DecidableEq, Repr

/-- One entry of `recent_transcript` in the `Escalation` interface. -/
structure TranscriptMessage where
  role : String
  content : String
  timestamp : Nat
deriving DecidableEq, Repr

/-- The `Escalation` interface of `EscalationDashboard.tsx` (second variant,
which adds the optional `ai_insights` / `insights_generated_at` fields; in
the first variant and `part_005` those fields are simply absent, i.e. always
`none`). -/
structure Escalation where
  escalation_id : String
  room_name : String
  user_id : String
  reason : String
  urgency : String
  decision_type : String
  context_details : String
  recent_transcript : List TranscriptMessage
  status : Status
  created_at : Nat
  human_response : Option String
  responded_at : Option Nat
  ai_insights : Option String
  insights_generated_at : Option Nat
deriving DecidableEq, Repr

/-- The WebSocket messages dispatched on `data.type` in `ws.onmessage`.
`escalation_resolved` and `insights_updated` carry both a top-level
`escalation_id` and a full `escalation` payload, exactly as the handlers
read them (`data.escalation_id`, `data.escalation`). -/
inductive WsMessage where
  | initial_state (escalations : List Escalation)
  | new_escalation (escalation : Escalation)
  | escalation_resolved (escalation_id : String) (escalation : Escalation)
  | insights_updated (escalation_id : String) (escalation : Escalation)
deriving DecidableEq, Repr

/-- The `setEscalations` updater of the `new_escalation` branch:
`const exists = prev.find(e => e.escalation_id === data.escalation.escalation_id);
if (exists) return prev; return [data.escalation, ...prev];` -/
def applyNewEscalation (escalation : Escalation) (prev : List Escalation) :
    List Escalation :=
  if (prev.find? (fun e => e.escalation_id == escalation.escalation_id)).isSome
  then prev
  else escalation :: prev

/-- The `setEscalations` updater shared by the `escalation_resolved` and
`insights_updated` branches:
`prev.map(e => e.escalation_id === data.escalation_id ? data.escalation : e)` -/
def applyReplaceById (escalation_id : String) (escalation : Escalation)
    (prev : List Escalation) : List Escalation :=
  prev.map (fun e => if e.escalation_id == escalation_id then escalation else e)

/-- `ws.onmessage` dispatch of the first dashboard variant (lines 52-79 of
`EscalationDashboard.tsx`, identical in `part_005` lines 38-63): it has
branches for `initial_state`, `new_escalation` and `escalation_resolved`
only; any other message type falls through without a `setEscalations` call,
which is represented by `none`. -/
def dispatchMessage1 (msg : WsMessage) (prev : List Escalation) :
    Option (List Escalation) :=
  match msg with
  | .initial_state es => some es
  | .new_escalation e => some (applyNewEscalation e prev)
  | .escalation_resolved id e => some (applyReplaceById id e prev)
  | .insights_updated _ _ => none

/-- `ws.onmessage` dispatch of the second dashboard variant (lines 431-467):
same as the first plus an `insights_updated` branch with the same
replace-by-id updater. -/
def dispatchMessage2 (msg : WsMessage) (prev : List Escalation) :
    Option (List Escalation) :=
  match msg with
  | .initial_state es => some es
  | .new_escalation e => some (applyNewEscalation e prev)
  | .escalation_resolved id e => some (applyReplaceById id e prev)
  | .insights_updated id e => some (applyReplaceById id e prev)

/-- `const pendingEscalations = escalations.filter((e) => e.status === "pending")` -/
def pendingEscalations (escalations : List Escalation) : List Escalation :=
  escalations.filter (fun e => e.status == Status.pending)

/-- Folding a stream of `new_escalation` payloads into the dashboard list,
applying each event's updater in arrival order. -/
def applyNewEscalations (init : List Escalation) (payloads : List Escalation) :
    List Escalation :=
  payloads.foldl (fun acc p => applyNewEscalation p acc) init

/-- The ids shown in a dashboard list. -/
def idsOf (escalations : List Escalation) : List String :=
  escalations.map (fun e => e.escalation_id)

/-- A displayed sequence ordered by `created_at` ascending (oldest first). -/
def sortedAscByCreated (escalations : List Escalation) : Prop :=
  List.Chain' (fun a b => a.created_at ≤ b.created_at) escalations

/-- A displayed sequence ordered by `created_at` descending (newest first). -/
def sortedDescByCreated (escalations : List Escalation) : Prop :=
  List.Chain' (fun a b => b.created_at ≤ a.created_at) escalations

instance (es : List Escalation) : Decidable (sortedAscByCreated es) := by
  unfold sortedAscByCreated; infer_instance

instance (es : List Escalation) : Decidable (sortedDescByCreated es) := by
  unfold sortedDescByCreated; infer_instance

/-- A sample pending escalation used in concrete witnesses. -/
def sampleA : Escalation :=
  { escalation_id := "esc-a", room_name := "room-1", user_id := "user-1",
    reason := "refund over limit", urgency := "high",
    decision_type := "refund_approval", context_details := "",
    recent_transcript := [], status := Status.pending, created_at := 1,
    human_response := none, responded_at := none, ai_insights := none,
    insights_generated_at := none }

/-- A second sample pending escalation, created later than `sampleA`. -/
def sampleB : Escalation :=
  { escalation_id := "esc-b", room_name := "room-2", user_id := "user-2",
    reason := "policy exception", urgency := "critical",
    decision_type := "policy_exception", context_details := "",
    recent_transcript := [], status := Status.pending, created_at := 2,
    human_response := none, responded_at := none, ai_insights := none,
    insights_generated_at := none }

/-- `sampleA` after an operator resolves it. -/
def sampleAResolved : Escalation :=
  { sampleA with
    status := Status.resolved
    human_response := some "approve"
    responded_at := some 5 }

/-- `sampleA` as it would arrive in an `insights_updated` payload generated
after resolution: insights attached and `status = resolved`. -/
def sampleAInsightResolved : Escalation :=
  { sampleAResolved with
    ai_insights := some "customer is on the premium plan"
    insights_generated_at := some 6 }

/-- `sampleB` as it would arrive in an `insights_updated` payload generated
while still pending: insights attached, status unchanged. -/
def sampleBInsight : Escalation :=
  { sampleB with
    ai_insights := some "policy allows a one-time exception"
    insights_generated_at := some 4 }

/-- The effects `handleSubmitResponse` can perform, in order: the POST to
`/api/escalations/:id/respond`, the `setResponseText("")` /
`setSelectedEscalation(null)` cleanup, the `fetchPendingEscalations()`
re-fetch, and the `alert(...)` calls. -/
inductive SubmitEffect where
  | postRespond (escalation_id : String) (response_text : String)
  | clearResponseText
  | clearSelection
  | refetchPending
  | alertMsg (msg : String)
deriving DecidableEq, Repr

/-- The outcome of the `fetch` inside `handleSubmitResponse`: an `ok`
response, a non-ok response whose JSON body may carry a `detail` field, or a
thrown network error. -/
inductive FetchReply where
  | okReply
  | errorReply (detail : Option String)
  | networkFailure
deriving DecidableEq, Repr

/-- JavaScript's `String.prototype.trim()` as used by `handleSubmitResponse`:
removes leading and trailing whitespace characters. -/
def jsTrim (s : String) : String :=
  ⟨((s.data.dropWhile Char.isWhitespace).reverse.dropWhile
      Char.isWhitespace).reverse⟩

/-- `handleSubmitResponse` from `EscalationDashboard.tsx` (identical in both
variants and in `part_005`), as the sequence of effects it performs given
the selected escalation, the typed response text, and the fetch outcome:
guard `if (!selectedEscalation || !responseText.trim()) return;` then POST
with body `response_text: responseText.trim()`; on `response.ok` clear the
text and selection and re-fetch pending; otherwise
`alert("Error: " + (error.detail || "Failed to submit response"))`; on a
thrown error `alert("Failed to submit response. Please try again.")`. -/
def handleSubmitResponse (selectedEscalation : Option Escalation)
    (responseText : String) (reply : FetchReply) : List SubmitEffect :=
  match selectedEscalation with
  | none => []
  | some sel =>
    if jsTrim responseText = "" then []
    else
      SubmitEffect.postRespond sel.escalation_id (jsTrim responseText) ::
        match reply with
        | .okReply =>
          [SubmitEffect.clearResponseText, SubmitEffect.clearSelection,
           SubmitEffect.refetchPending]
        | .errorReply detail =>
          [SubmitEffect.alertMsg
            ("Error: " ++ detail.getD "Failed to submit response")]
        | .networkFailure =>
          [SubmitEffect.alertMsg "Failed to submit response. Please try again."]

/-- Result of the Store's compare-and-set / `respond`. -/
inductive RespondResult where
  | ok
  | alreadyResolved
  | notFound
deriving DecidableEq, Repr

/-- Modelled from the spec: the Escalation Store's
`compareAndTransitionToResolved(id, response, resolvedAt)` primitive
(§4.1) applied to a single record — the backend Store code is not in the
repository snapshot. It atomically checks `status == pending`; if so it sets
`status = resolved`, the response text and the resolution time and succeeds;
otherwise it fails with `AlreadyResolved` and performs no mutation. -/
def compareAndTransitionToResolved (rec : Escalation) (text : String)
    (resolvedAt : Nat) : RespondResult × Escalation :=
  if rec.status = Status.pending then
    (RespondResult.ok,
     { rec with
       status := Status.resolved
       human_response := some text
       responded_at := some resolvedAt })
  else
    (RespondResult.alreadyResolved, rec)

/-- Modelled from the spec: a serialized execution of `respond` calls on one
record. §4.1 says the compare-and-set is a single atomic section per record,
so any set of concurrent `respond(id, ...)` calls is equivalent to running
them one after another in some order; the list holds that serialization
order, each call carrying its text and resolution time. -/
def runResponds (rec : Escalation) (calls : List (String × Nat)) :
    List RespondResult × Escalation :=
  match calls with
  | [] => ([], rec)
  | (text, t) :: rest =>
    let step := compareAndTransitionToResolved rec text t
    let tail := runResponds step.2 rest
    (step.1 :: tail.1, tail.2)

/-- Modelled from the spec: the Store as the single mapping from escalation
id to record (§6 persisted-state layout), with `get` as lookup by id. -/
def storeGet (store : List Escalation) (escalation_id : String) :
    Option Escalation :=
  store.find? (fun e => e.escalation_id == escalation_id)

/-- Modelled from the spec: the Orchestrator's `respond(id, text)` (§4.4):
it calls the Store's atomic compare-and-transition on the record with that
id, failing with `NotFound` for an unknown id. -/
def respond (store : List Escalation) (escalation_id : String)
    (text : String) (resolvedAt : Nat) : RespondResult × List Escalation :=
  match storeGet store escalation_id with
  | none => (RespondResult.notFound, store)
  | some rec =>
    let step := compareAndTransitionToResolved rec text resolvedAt
    (step.1,
     store.map (fun e => if e.escalation_id == escalation_id then step.2 else e))

/-- Outcome of `awaitResponse` (§4.4). -/
inductive AwaitOutcome where
  | Resolved (text : String)
  | TimedOut
deriving DecidableEq, Repr

/-- Modelled from the spec: `awaitResponse(id, timeout)` (§4.4). The
`delivered` argument stands for what the waiter's channel received before
the deadline: `some text` when a resolution event arrived in time, `none`
when the timeout elapsed first. In the timeout case the call only
unregisters the waiter; the Store is not touched, so the escalation itself
remains `pending` in the Store. -/
def awaitResponse (store : List Escalation) (escalation_id : String)
    (delivered : Option String) : AwaitOutcome × List Escalation :=
  match delivered with
  | some text => (AwaitOutcome.Resolved text, store)
  | none => (AwaitOutcome.TimedOut, store)

/-! ## Helper lemmas -/

theorem applyNewEscalation_of_fresh (e : Escalation) (prev : List Escalation)
    (h : e.escalation_id ∉ idsOf prev) :
    applyNewEscalation e prev = e :: prev := by
  have hfind : prev.find? (fun x => x.escalation_id == e.escalation_id) = none := by
    rw [List.find?_eq_none]
    intro x hx
    simp only [beq_iff_eq]
    intro heq
    exact h (by simpa [idsOf, heq] using
      List.mem_map_of_mem (fun y => y.escalation_id) hx)
  simp [applyNewEscalation, hfind]

theorem applyNewEscalation_of_mem (e : Escalation) (prev : List Escalation)
    (h : e.escalation_id ∈ idsOf prev) :
    applyNewEscalation e prev = prev := by
  obtain ⟨x, hx, hxe⟩ := List.mem_map.mp h
  have hfind : (prev.find? (fun y => y.escalation_id == e.escalation_id)).isSome := by
    rw [List.find?_isSome]
    exact ⟨x, hx, by simp [hxe]⟩
  simp [applyNewEscalation, hfind]

theorem applyNewEscalations_of_fresh (payloads : List Escalation) :
    ∀ init : List Escalation, (idsOf payloads).Nodup →
      (∀ p ∈ payloads, p.escalation_id ∉ idsOf init) →
      applyNewEscalations init payloads = payloads.reverse ++ init := by
  induction payloads with
  | nil => intro init _ _; simp [applyNewEscalations]
  | cons p ps ih =>
    intro init hnodup hfresh
    have hstep : applyNewEscalation p init = p :: init :=
      applyNewEscalation_of_fresh p init (hfresh p (by simp))
    have hn : (p.escalation_id :: idsOf ps).Nodup := hnodup
    have hnodup' : (idsOf ps).Nodup := (List.nodup_cons.mp hn).2
    have hhead : p.escalation_id ∉ idsOf ps := (List.nodup_cons.mp hn).1
    have hfresh' : ∀ q ∈ ps, q.escalation_id ∉ idsOf (p :: init) := by
      intro q hq
      simp only [idsOf, List.map_cons, List.mem_cons]
      rintro (h1 | h2)
      · exact hhead (by simpa [idsOf, h1] using
          List.mem_map_of_mem (fun y => y.escalation_id) hq)
      · exact hfresh q (List.mem_cons_of_mem p hq) (by simpa [idsOf] using h2)
    calc applyNewEscalations init (p :: ps)
        = applyNewEscalations (p :: init) ps := by
          simp [applyNewEscalations, hstep]
      _ = ps.reverse ++ (p :: init) := ih (p :: init) hnodup' hfresh'
      _ = (p :: ps).reverse ++ init := by simp

theorem mem_pendingEscalations (es : List Escalation) (x : Escalation) :
    x ∈ pendingEscalations es ↔ x ∈ es ∧ x.status = Status.pending := by
  simp [pendingEscalations, List.mem_filter]

theorem pendingEscalations_eq_self (es : List Escalation)
    (h : ∀ e ∈ es, e.status = Status.pending) :
    pendingEscalations es = es := by
  unfold pendingEscalations
  rw [List.filter_eq_self]
  intro a ha
  simp [h a ha]

theorem applyReplaceById_of_fresh (escalation_id : String) (r : Escalation)
    (es : List Escalation) (h : escalation_id ∉ idsOf es) :
    applyReplaceById escalation_id r es = es := by
  unfold applyReplaceById
  have hcong : ∀ x ∈ es,
      (if x.escalation_id == escalation_id then r else x) = id x := by
    intro x hx
    have hne : x.escalation_id ≠ escalation_id := by
      intro heq
      exact h (by simpa [idsOf, heq] using
        List.mem_map_of_mem (fun y => y.escalation_id) hx)
    simp [hne]
  rw [List.map_congr_left hcong, List.map_id]

theorem runResponds_of_resolved (calls : List (String × Nat)) :
    ∀ rec : Escalation, rec.status = Status.resolved →
      runResponds rec calls
        = (List.replicate calls.length RespondResult.alreadyResolved, rec) := by
  induction calls with
  | nil => intro rec _; simp [runResponds]
  | cons c rest ih =>
    intro rec h
    obtain ⟨text, t⟩ := c
    have hc : compareAndTransitionToResolved rec text t
        = (RespondResult.alreadyResolved, rec) := by
      simp [compareAndTransitionToResolved, h]
    simp [runResponds, hc, ih rec h, List.replicate_succ]

theorem find?_map_replace (escalation_id : String) (rec' : Escalation)
    (hid : rec'.escalation_id = escalation_id) :
    ∀ store : List Escalation, ∀ rec : Escalation,
      storeGet store escalation_id = some rec →
      (store.map (fun e => if e.escalation_id == escalation_id then rec' else e)).find?
          (fun e => e.escalation_id == escalation_id) = some rec' := by
  intro store
  induction store with
  | nil => intro rec h; simp [storeGet] at h
  | cons x xs ih =>
    intro rec h
    by_cases hx : x.escalation_id = escalation_id
    · have hhead : (if (x.escalation_id == escalation_id) = true
          then rec' else x) = rec' := by simp [hx]
      simp only [List.map_cons, hhead]
      exact List.find?_cons_of_pos _ (by simp [hid])
    · have hxb : (x.escalation_id == escalation_id) = false := by simp [hx]
      have hhead : (if (x.escalation_id == escalation_id) = true
          then rec' else x) = x := by simp [hx]
      have h' : storeGet xs escalation_id = some rec := by
        unfold storeGet at h ⊢
        rw [List.find?_cons] at h
        simpa [hxb] using h
      simp only [List.map_cons, hhead]
      rw [List.find?_cons]
      simpa [hxb] using ih rec h'

/-! ## Claim theorems -/

/-- Claim C8: the dashboard's `new_escalation` handler is idempotent on the
escalation id — a payload whose id already occurs in the list leaves the
list unchanged, a payload with a fresh id prepends exactly one entry, and
the handler preserves distinctness of displayed ids, so the displayed list
never contains two entries with the same id. -/
theorem new_escalation_idempotent (es : List Escalation) (e : Escalation) :
    ((∃ x ∈ es, x.escalation_id = e.escalation_id) →
      applyNewEscalation e es = es)
    ∧ (e.escalation_id ∉ idsOf es → applyNewEscalation e es = e :: es)
    ∧ ((idsOf es).Nodup → (idsOf (applyNewEscalation e es)).Nodup) := by
  refine ⟨?_, ?_, ?_⟩
  · rintro ⟨x, hx, hxe⟩
    exact applyNewEscalation_of_mem e es (by
      simpa [idsOf, hxe] using
        List.mem_map_of_mem (fun y => y.escalation_id) hx)
  · exact applyNewEscalation_of_fresh e es
  · intro hnodup
    by_cases hmem : e.escalation_id ∈ idsOf es
    · rw [applyNewEscalation_of_mem e es hmem]; exact hnodup
    · rw [applyNewEscalation_of_fresh e es hmem]
      exact List.nodup_cons.mpr ⟨hmem, hnodup⟩

/-- Witness for C8: a duplicate `new_escalation` for `esc-a` is dropped,
and a fresh one for `esc-b` prepends exactly one entry. -/
theorem new_escalation_idempotent_witness :
    applyNewEscalation sampleA [sampleA] = [sampleA]
    ∧ applyNewEscalation sampleB [sampleA] = [sampleB, sampleA] :=
  ⟨(new_escalation_idempotent [sampleA] sampleA).1
      ⟨sampleA, by decide, by decide⟩,
   (new_escalation_idempotent [sampleA] sampleB).2.1 (by decide)⟩

/-- Claim C9: an `escalation_resolved` event whose id matches no displayed
escalation is a harmless no-op — both dashboard variants take their
`escalation_resolved` branch (no error is raised) and the resulting
escalation list is unchanged, with no entry inserted. -/
theorem resolved_unknown_id_noop (es : List Escalation)
    (escalation_id : String) (r : Escalation)
    (h : escalation_id ∉ idsOf es) :
    dispatchMessage1 (WsMessage.escalation_resolved escalation_id r) es
      = some es
    ∧ dispatchMessage2 (WsMessage.escalation_resolved escalation_id r) es
      = some es := by
  have hnoop := applyReplaceById_of_fresh escalation_id r es h
  exact ⟨by simp [dispatchMessage1, hnoop], by simp [dispatchMessage2, hnoop]⟩

/-- Witness for C9: resolving the unknown id `esc-z` leaves the list
containing only `esc-a` unchanged. -/
theorem resolved_unknown_id_noop_witness :
    "esc-z" ∉ idsOf [sampleA]
    ∧ dispatchMessage1 (WsMessage.escalation_resolved "esc-z" sampleB) [sampleA]
        = some [sampleA] :=
  ⟨by decide,
   (resolved_unknown_id_noop [sampleA] "esc-z" sampleB (by decide)).1⟩

/-- Claim C4: the displayed pending projection contains exactly the
escalations whose status is `pending` — for a dashboard list with distinct
ids, an id of a listed escalation appears in `pendingEscalations` iff that
escalation's status is `pending`; after an `escalation_resolved` event
whose payload is the resolved record, the id no longer appears in the
pending projection; and before such an event a pending listed id does
appear. -/
theorem pending_projection_exact (es : List Escalation)
    (escalation_id : String) (r : Escalation)
    (hnodup : (idsOf es).Nodup)
    (hrid : r.escalation_id = escalation_id)
    (hrstatus : r.status = Status.resolved) :
    (∀ e ∈ es, (e.escalation_id ∈ idsOf (pendingEscalations es) ↔
      e.status = Status.pending))
    ∧ escalation_id ∉
        idsOf (pendingEscalations (applyReplaceById escalation_id r es))
    ∧ (∀ e ∈ es, e.escalation_id = escalation_id →
        e.status = Status.pending →
        escalation_id ∈ idsOf (pendingEscalations es)) := by
  have h1 : ∀ e ∈ es, (e.escalation_id ∈ idsOf (pendingEscalations es) ↔
      e.status = Status.pending) := by
    intro e he
    constructor
    · intro hmem
      obtain ⟨y, hy, hye⟩ := List.mem_map.mp hmem
      obtain ⟨hy1, hy2⟩ := (mem_pendingEscalations es y).mp hy
      have hey : y = e := List.inj_on_of_nodup_map hnodup hy1 he hye
      rw [← hey]; exact hy2
    · intro hp
      exact List.mem_map_of_mem (fun y => y.escalation_id)
        ((mem_pendingEscalations es e).mpr ⟨he, hp⟩)
  refine ⟨h1, ?_, ?_⟩
  · intro hmem
    obtain ⟨y, hy, hye⟩ := List.mem_map.mp hmem
    obtain ⟨hy1, hy2⟩ := (mem_pendingEscalations _ y).mp hy
    unfold applyReplaceById at hy1
    obtain ⟨x, hx, hgx⟩ := List.mem_map.mp hy1
    by_cases hxid : x.escalation_id = escalation_id
    · have hyr : y = r := by rw [← hgx]; simp [hxid]
      rw [hyr, hrstatus] at hy2
      exact Status.noConfusion hy2
    · have hyx : y = x := by rw [← hgx]; simp [hxid]
      rw [hyx] at hye
      exact hxid hye
  · intro e he heid hp
    have := (h1 e he).mpr hp
    rwa [heid] at this

/-- Witness for C4: after resolving `esc-a` its id leaves the pending
projection of the two-element dashboard list. -/
theorem pending_projection_exact_witness :
    (idsOf [sampleA, sampleB]).Nodup
    ∧ sampleAResolved.escalation_id = "esc-a"
    ∧ sampleAResolved.status = Status.resolved
    ∧ "esc-a" ∉ idsOf (pendingEscalations
        (applyReplaceById "esc-a" sampleAResolved [sampleA, sampleB])) :=
  ⟨by decide, by decide, by decide,
   (pending_projection_exact [sampleA, sampleB] "esc-a" sampleAResolved
      (by decide) (by decide) (by decide)).2.1⟩

/-- Counterexample for C5: the first dashboard variant (and the `part_005`
dashboard) silently discards an `insights_updated` event — its
`ws.onmessage` dispatch makes no `setEscalations` call for that message
type. -/
theorem insights_discarded_counterexample :
    dispatchMessage1
      (WsMessage.insights_updated "esc-a" sampleAInsightResolved) [sampleA]
      = none := rfl

/-- Claim C5 (amended): the second dashboard variant handles all three
lifecycle event kinds — `new_escalation`, `escalation_resolved` and
`insights_updated` each reach a `setEscalations` branch — while the first
variant (and `part_005`) handles only the first two and silently discards
`insights_updated`. -/
theorem dispatch_event_coverage (prev : List Escalation) (e : Escalation)
    (escalation_id : String) :
    (dispatchMessage2 (WsMessage.new_escalation e) prev).isSome = true
    ∧ (dispatchMessage2
        (WsMessage.escalation_resolved escalation_id e) prev).isSome = true
    ∧ (dispatchMessage2
        (WsMessage.insights_updated escalation_id e) prev).isSome = true
    ∧ (dispatchMessage1 (WsMessage.new_escalation e) prev).isSome = true
    ∧ (dispatchMessage1
        (WsMessage.escalation_resolved escalation_id e) prev).isSome = true
    ∧ dispatchMessage1
        (WsMessage.insights_updated escalation_id e) prev = none := by
  simp [dispatchMessage1, dispatchMessage2]

/-- Counterexample for C6: an `insights_updated` event whose payload
carries `status = resolved` (insights generated after resolution, arriving
while the dashboard still shows the record as pending) changes the
target's `status` — the record drops out of the pending projection even
though the event was only an insight update. -/
theorem insight_changes_status_counterexample :
    sampleA.status = Status.pending
    ∧ sampleAInsightResolved.status = Status.resolved
    ∧ applyReplaceById "esc-a" sampleAInsightResolved [sampleA]
        = [sampleAInsightResolved]
    ∧ pendingEscalations [sampleA] = [sampleA]
    ∧ pendingEscalations
        (applyReplaceById "esc-a" sampleAInsightResolved [sampleA]) = [] := by
  decide

/-- Claim C6 (amended): the `insights_updated` handler touches only its
target — every escalation at a position whose id differs from the event's
`escalation_id` is left exactly as it was (and stays in the list) — and it
preserves every `status` field provided the payload's status agrees with
the stored status of the records it replaces; the handler replaces the
target wholesale, so without that proviso the target's status becomes the
payload's. -/
theorem insights_update_frame (es : List Escalation)
    (escalation_id : String) (r : Escalation)
    (hstatus : ∀ x ∈ es, x.escalation_id = escalation_id →
      x.status = r.status) :
    (∀ i : Nat, ∀ x : Escalation, es[i]? = some x →
        x.escalation_id ≠ escalation_id →
        (applyReplaceById escalation_id r es)[i]? = some x)
    ∧ (∀ x ∈ es, x.escalation_id ≠ escalation_id →
        x ∈ applyReplaceById escalation_id r es)
    ∧ (applyReplaceById escalation_id r es).map (fun e => e.status)
        = es.map (fun e => e.status) := by
  refine ⟨?_, ?_, ?_⟩
  · intro i x hi hne
    unfold applyReplaceById
    rw [List.getElem?_map, hi]
    simp [hne]
  · intro x hx hne
    have hmem := List.mem_map_of_mem
      (fun e => if (e.escalation_id == escalation_id) = true then r else e) hx
    have hfix : (fun e =>
        if (e.escalation_id == escalation_id) = true then r else e) x = x := by
      simp [hne]
    rw [hfix] at hmem
    unfold applyReplaceById
    exact hmem
  · unfold applyReplaceById
    rw [List.map_map]
    apply List.map_congr_left
    intro a ha
    by_cases haid : a.escalation_id = escalation_id
    · simp [Function.comp, haid, hstatus a ha haid]
    · simp [Function.comp, haid]

/-- Witness for C6 (amended): an insight payload for `esc-b` with matching
status leaves `esc-a` in place and preserves both statuses. -/
theorem insights_update_frame_witness :
    sampleA ∈ applyReplaceById "esc-b" sampleBInsight [sampleA, sampleB]
    ∧ (applyReplaceById "esc-b" sampleBInsight [sampleA, sampleB]).map
        (fun e => e.status) = [sampleA, sampleB].map (fun e => e.status) :=
  ⟨(insights_update_frame [sampleA, sampleB] "esc-b" sampleBInsight
      (by decide)).2.1 sampleA (by decide) (by decide),
   (insights_update_frame [sampleA, sampleB] "esc-b" sampleBInsight
      (by decide)).2.2⟩

/-- Counterexample for C2: the dashboard prepends each `new_escalation`
payload, so after two creation events arriving in creation order the
displayed pending list shows the later-created escalation first — it is
not ordered by `created_at` ascending. -/
theorem fifo_order_counterexample :
    sampleA.created_at < sampleB.created_at
    ∧ pendingEscalations (applyNewEscalations [] [sampleA, sampleB])
        = [sampleB, sampleA]
    ∧ ¬ sortedAscByCreated
        (pendingEscalations (applyNewEscalations [] [sampleA, sampleB])) := by
  refine ⟨by decide, by decide, ?_⟩
  intro h
  rw [show pendingEscalations (applyNewEscalations [] [sampleA, sampleB])
      = [sampleB, sampleA] from by decide] at h
  unfold sortedAscByCreated at h
  rw [List.chain'_cons] at h
  exact absurd h.1 (by decide)

/-- Claim C2 (amended): for every sequence of `new_escalation` events with
distinct ids and pending payloads, arriving in creation order, the
displayed pending sequence is the reverse of the arrival order — newest
first, ordered by `created_at` descending (a LIFO display, not the FIFO
oldest-first order the spec gives for `listPending`). -/
theorem new_escalation_stream_newest_first (payloads : List Escalation)
    (hnodup : (idsOf payloads).Nodup)
    (hpending : ∀ p ∈ payloads, p.status = Status.pending)
    (hasc : List.Chain' (fun a b => a.created_at < b.created_at) payloads) :
    pendingEscalations (applyNewEscalations [] payloads) = payloads.reverse
    ∧ sortedDescByCreated
        (pendingEscalations (applyNewEscalations [] payloads)) := by
  have hfold : applyNewEscalations [] payloads = payloads.reverse ++ [] :=
    applyNewEscalations_of_fresh payloads [] hnodup
      (by intro p _; simp [idsOf])
  rw [List.append_nil] at hfold
  have hpend : pendingEscalations (applyNewEscalations [] payloads)
      = payloads.reverse := by
    rw [hfold]
    exact pendingEscalations_eq_self _
      (by intro e he; exact hpending e (List.mem_reverse.mp he))
  refine ⟨hpend, ?_⟩
  rw [hpend]
  unfold sortedDescByCreated
  rw [List.chain'_reverse]
  exact List.Chain'.imp (fun a b hab => Nat.le_of_lt hab) hasc

/-- Witness for C2 (amended): two creation events in creation order yield
the newest-first display. -/
theorem new_escalation_stream_newest_first_witness :
    (idsOf [sampleA, sampleB]).Nodup
    ∧ pendingEscalations (applyNewEscalations [] [sampleA, sampleB])
        = [sampleB, sampleA] :=
  ⟨by decide, by
    have h := (new_escalation_stream_newest_first [sampleA, sampleB]
      (by decide) (by decide)
      (by rw [List.chain'_cons]
          exact ⟨by decide, List.chain'_singleton _⟩)).1
    exact h.trans (by decide)⟩

/-- Counterexample for C3: when the server rejects the respond submission,
the console only raises an alert with the error detail — it performs no
re-fetch, so no existing resolution is fetched or displayed. -/
theorem reject_no_refetch_counterexample :
    handleSubmitResponse (some sampleA) "approve"
        (FetchReply.errorReply (some "Escalation already resolved"))
      = [SubmitEffect.postRespond "esc-a" "approve",
         SubmitEffect.alertMsg "Error: Escalation already resolved"]
    ∧ SubmitEffect.refetchPending ∉
        handleSubmitResponse (some sampleA) "approve"
          (FetchReply.errorReply (some "Escalation already resolved")) := by
  decide

/-- Claim C3 (amended): when the server rejects the respond submission the
console surfaces the rejection by alerting with the server's error detail
(falling back to a generic message); it never re-fetches in the rejection
path. -/
theorem reject_alerts_detail (sel : Escalation) (text : String)
    (detail : Option String) :
    SubmitEffect.refetchPending ∉
      handleSubmitResponse (some sel) text (FetchReply.errorReply detail)
    ∧ (jsTrim text ≠ "" →
        handleSubmitResponse (some sel) text (FetchReply.errorReply detail)
          = [SubmitEffect.postRespond sel.escalation_id (jsTrim text),
             SubmitEffect.alertMsg
               ("Error: " ++ detail.getD "Failed to submit response")]) := by
  unfold handleSubmitResponse
  by_cases h : jsTrim text = "" <;> simp [h]

/-- Witness for C3 (amended): a rejected submission with detail `dup`
produces exactly the POST and the alert. -/
theorem reject_alerts_detail_witness :
    jsTrim "approve" ≠ ""
    ∧ handleSubmitResponse (some sampleA) "approve"
        (FetchReply.errorReply (some "dup"))
      = [SubmitEffect.postRespond "esc-a" "approve",
         SubmitEffect.alertMsg "Error: dup"] :=
  ⟨by decide, by
    have h := (reject_alerts_detail sampleA "approve" (some "dup")).2
      (by decide)
    exact h.trans (by decide)⟩

/-- Claim C10: the console never submits a blank response —
`handleSubmitResponse` issues no request when no escalation is selected or
when the typed text trims to empty, and any request it does issue carries
exactly the trimmed (hence non-empty) typed text. -/
theorem no_blank_submission (selectedEscalation : Option Escalation)
    (responseText : String) (reply : FetchReply) :
    handleSubmitResponse none responseText reply = []
    ∧ (jsTrim responseText = "" →
        handleSubmitResponse selectedEscalation responseText reply = [])
    ∧ (∀ eid body, SubmitEffect.postRespond eid body ∈
          handleSubmitResponse selectedEscalation responseText reply →
        body = jsTrim responseText ∧ body ≠ "") := by
  refine ⟨rfl, ?_, ?_⟩
  · intro h
    cases selectedEscalation with
    | none => rfl
    | some sel => simp [handleSubmitResponse, h]
  · intro eid body hmem
    cases selectedEscalation with
    | none => simp [handleSubmitResponse] at hmem
    | some sel =>
      by_cases h : jsTrim responseText = ""
      · simp [handleSubmitResponse, h] at hmem
      · cases reply with
        | okReply =>
          simp [handleSubmitResponse, h] at hmem
          refine ⟨hmem.2, ?_⟩
          rw [hmem.2]; exact h
        | errorReply detail =>
          simp [handleSubmitResponse, h] at hmem
          refine ⟨hmem.2, ?_⟩
          rw [hmem.2]; exact h
        | networkFailure =>
          simp [handleSubmitResponse, h] at hmem
          refine ⟨hmem.2, ?_⟩
          rw [hmem.2]; exact h

/-- Witness for C10: whitespace-only text yields no effects at all, and a
padded text is submitted trimmed. -/
theorem no_blank_submission_witness :
    jsTrim "   " = ""
    ∧ handleSubmitResponse (some sampleA) "   " FetchReply.okReply = []
    ∧ "approve" = jsTrim " approve " ∧ "approve" ≠ "" :=
  ⟨by decide,
   (no_blank_submission (some sampleA) "   " FetchReply.okReply).2.1
     (by decide),
   (no_blank_submission (some sampleA) " approve " FetchReply.okReply).2.2
     "esc-a" "approve" (by decide)⟩

/-- Claim C1: under the Store's atomic compare-and-set, any serialization
of concurrent `respond` calls on a pending escalation has exactly one
success — the call serialized first — every later call fails with
`AlreadyResolved`, the stored response equals the successful call's text,
and a failing compare-and-set performs no mutation at all. -/
theorem respond_exclusivity (rec : Escalation) (text : String) (t : Nat)
    (rest : List (String × Nat)) (hp : rec.status = Status.pending) :
    ((runResponds rec ((text, t) :: rest)).1
        = RespondResult.ok ::
            List.replicate rest.length RespondResult.alreadyResolved)
    ∧ (runResponds rec ((text, t) :: rest)).1.count RespondResult.ok = 1
    ∧ (runResponds rec ((text, t) :: rest)).2.status = Status.resolved
    ∧ (runResponds rec ((text, t) :: rest)).2.human_response = some text
    ∧ (∀ r : Escalation, ∀ s : String, ∀ u : Nat,
        r.status = Status.resolved →
        compareAndTransitionToResolved r s u
          = (RespondResult.alreadyResolved, r)) := by
  have hstep : compareAndTransitionToResolved rec text t
      = (RespondResult.ok,
         { rec with
           status := Status.resolved
           human_response := some text
           responded_at := some t }) := by
    simp [compareAndTransitionToResolved, hp]
  have hres := runResponds_of_resolved rest
    { rec with
      status := Status.resolved
      human_response := some text
      responded_at := some t } rfl
  have hrun : runResponds rec ((text, t) :: rest)
      = (RespondResult.ok ::
          List.replicate rest.length RespondResult.alreadyResolved,
         { rec with
           status := Status.resolved
           human_response := some text
           responded_at := some t }) := by
    simp [runResponds, hstep, hres]
  have hcount : (RespondResult.ok ::
      List.replicate rest.length RespondResult.alreadyResolved).count
        RespondResult.ok = 1 := by
    rw [List.count_cons_self]
    have hzero : (List.replicate rest.length
        RespondResult.alreadyResolved).count RespondResult.ok = 0 :=
      List.count_eq_zero.mpr (by
        intro hmem
        exact RespondResult.noConfusion (List.eq_of_mem_replicate hmem))
    rw [hzero]
  refine ⟨by rw [hrun], by rw [hrun]; exact hcount, by rw [hrun],
    by rw [hrun], ?_⟩
  intro r s u hr
  simp [compareAndTransitionToResolved, hr]

/-- Witness for C1: two serialized calls on pending `sampleA` — the first
wins, the second gets `AlreadyResolved`, and the stored response is the
winner's text. -/
theorem respond_exclusivity_witness :
    sampleA.status = Status.pending
    ∧ (runResponds sampleA [("approve", 5), ("deny", 6)]).1
        = [RespondResult.ok, RespondResult.alreadyResolved]
    ∧ (runResponds sampleA [("approve", 5), ("deny", 6)]).2.human_response
        = some "approve" :=
  ⟨rfl,
   ((respond_exclusivity sampleA "approve" 5 [("deny", 6)] rfl).1).trans
     (by decide),
   (respond_exclusivity sampleA "approve" 5 [("deny", 6)] rfl).2.2.2.1⟩

/-- Claim C7: a timed-out `awaitResponse` returns `TimedOut` and does not
touch the Store — the escalation's record is unchanged and still
`pending` — and a later `respond` on the same id succeeds, transitioning
the stored record to `resolved` with the operator's text. -/
theorem timeout_leaves_pending (store : List Escalation)
    (escalation_id : String) (rec : Escalation) (text : String) (t : Nat)
    (hget : storeGet store escalation_id = some rec)
    (hp : rec.status = Status.pending) :
    awaitResponse store escalation_id none = (AwaitOutcome.TimedOut, store)
    ∧ storeGet (awaitResponse store escalation_id none).2 escalation_id
        = some rec
    ∧ rec.status = Status.pending
    ∧ (respond store escalation_id text t).1 = RespondResult.ok
    ∧ (∃ rec', storeGet (respond store escalation_id text t).2 escalation_id
          = some rec'
        ∧ rec'.status = Status.resolved
        ∧ rec'.human_response = some text) := by
  have hid : rec.escalation_id = escalation_id := by
    have := List.find?_some hget
    simpa using this
  have hstep : compareAndTransitionToResolved rec text t
      = (RespondResult.ok,
         { rec with
           status := Status.resolved
           human_response := some text
           responded_at := some t }) := by
    simp [compareAndTransitionToResolved, hp]
  have hrespond : respond store escalation_id text t
      = (RespondResult.ok,
         store.map (fun e =>
           if e.escalation_id == escalation_id then
             { rec with
               status := Status.resolved
               human_response := some text
               responded_at := some t }
           else e)) := by
    unfold respond
    rw [hget]
    simp [hstep]
  refine ⟨rfl, hget, hp, by rw [hrespond], ?_⟩
  refine ⟨{ rec with
      status := Status.resolved
      human_response := some text
      responded_at := some t }, ?_, rfl, rfl⟩
  rw [hrespond]
  unfold storeGet
  exact find?_map_replace escalation_id
    { rec with
      status := Status.resolved
      human_response := some text
      responded_at := some t } hid store rec hget

/-- Witness for C7: the store holding only pending `sampleA` — the timeout
path succeeds and the later `respond` resolves it. -/
theorem timeout_leaves_pending_witness :
    storeGet [sampleA] "esc-a" = some sampleA
    ∧ sampleA.status = Status.pending
    ∧ (respond [sampleA] "esc-a" "ok" 7).1 = RespondResult.ok :=
  ⟨by decide, rfl,
   (timeout_leaves_pending [sampleA] "esc-a" sampleA "ok" 7
      (by decide) rfl).2.2.2.1⟩

end Humanly
